import Mathlib

/-!
Shallow embedding of the Cloudflare AI Gateway proxy core
(provider adapters, auth middleware, gateway-config cache)
and proofs of its specification claims.

Header maps (`Record<string, string>` in the source) are modelled as
association lists of key/value pairs; JavaScript object/`Map` update,
deletion and lookup are modelled by `setKey`, `eraseKey`/`List.filter`
and `findVal`.  JavaScript string truthiness (absent or empty string is
falsy) is modelled by `truthy`.
-/

namespace AIGW

/-- A JavaScript `Record<string, string>` / header map: association list of
key/value pairs (a JS object never holds two entries with the same key,
but no proof below needs that assumption). -/
abbrev Headers := List (String × String)

/-- Property lookup `obj[k]`: value of the first entry with key `k`. -/
def findVal (h : Headers) (k : String) : Option String :=
  (h.find? (fun p => p.1 == k)).map (fun p => p.2)

/-- JavaScript truthiness of an optional string: `undefined` and `""` are
falsy, every other string is truthy. -/
def truthy : Option String → Bool
  | none => false
  | some s => !(s == "")

/-- JavaScript `c.toLowerCase()` on one character (ASCII range, the only
range header keys use). -/
def jsCharLower (c : Char) : Char :=
  if 'A' ≤ c ∧ c ≤ 'Z' then Char.ofNat (c.toNat + 32) else c

/-- JavaScript `s.toLowerCase()`. -/
def jsToLower (s : String) : String := String.mk (s.data.map jsCharLower)

/-- JavaScript `s.startsWith(pre)`. -/
def jsStartsWith (s pre : String) : Bool := pre.data.isPrefixOf s.data

/-- JavaScript `s.substring(n)`. -/
def jsDrop (s : String) (n : Nat) : String := String.mk (s.data.drop n)

/-- JavaScript whitespace (space, tab, line terminators, NBSP). -/
def jsIsSpace (c : Char) : Bool :=
  c.toNat == 32 || (9 ≤ c.toNat && c.toNat ≤ 13) || c.toNat == 160

/-- JavaScript `s.trim()`. -/
def jsTrim (s : String) : String :=
  String.mk (((s.data.dropWhile jsIsSpace).reverse.dropWhile jsIsSpace).reverse)

/-- JavaScript `delete obj[k]`: remove every entry whose key is exactly `k`. -/
def eraseKey (k : String) (h : Headers) : Headers :=
  h.filter (fun p => !(p.1 == k))

/-- The loop `Object.keys(t).forEach(key => { if (key.toLowerCase().startsWith('cf-aig-')) delete t[key] })`
shared by all three adapters. -/
def stripCfAig (h : Headers) : Headers :=
  h.filter (fun p => !(jsStartsWith (jsToLower p.1) "cf-aig-"))

/-- JavaScript `obj[k] = v`: update the entry with key `k` in place, or
append a new entry when the key is absent. -/
def setKey (k v : String) (h : Headers) : Headers :=
  if h.any (fun p => p.1 == k) then
    h.map (fun p => if p.1 == k then (k, v) else p)
  else h ++ [(k, v)]

/-- Accumulator pass of `jsSplit`. -/
def splitGo (sep : Char) : List Char → List Char → List (List Char)
  | [], acc => [acc.reverse]
  | c :: cs, acc =>
    if c == sep then acc.reverse :: splitGo sep cs []
    else splitGo sep cs (c :: acc)

/-- JavaScript `s.split(sep)` for a one-character separator (the adapters
only ever split on `'/'`).  Always returns at least one segment; the empty
string yields `[""]`. -/
def jsSplit (sep : Char) (s : String) : List String :=
  (splitGo sep s.data []).map (fun l => String.mk l)

/-- Recursive worker for `replaceFirst`. -/
def replaceFirstGo (pat repl : List Char) : List Char → List Char
  | [] => []
  | c :: cs =>
    if pat.isPrefixOf (c :: cs) then repl ++ (c :: cs).drop pat.length
    else c :: replaceFirstGo pat repl cs

/-- JavaScript `s.replace(pat, repl)` with a string pattern: replace the
first occurrence of `pat` only (used for the `{accountId}` placeholder). -/
def replaceFirst (s pat repl : String) : String :=
  String.mk (replaceFirstGo pat.data repl.data s.data)

/-- JavaScript `url.substring(url.indexOf('?'))` guarded by `indexOf !== -1`:
everything from the first `'?'` onward, or `""` when there is none. -/
def queryStringOf (url : String) : String :=
  String.mk (url.data.dropWhile (fun c => !(c == '?')))

/-- The static provider to base-URL table from `src/config/providers.ts`. -/
def PROVIDER_BASE_URLS : Headers :=
  [ ("openai", "https://api.openai.com/v1")
  , ("anthropic", "https://api.anthropic.com/v1")
  , ("workers-ai", "https://api.cloudflare.com/client/v4/accounts/{accountId}/ai/run")
  , ("google-ai-studio", "https://generativelanguage.googleapis.com")
  , ("azure-openai", "")
  , ("aws-bedrock", "")
  , ("huggingface", "https://api-inference.huggingface.co")
  , ("cohere", "https://api.cohere.ai/v1") ]

/-- `DefaultAdapter.constructTargetUrl`: table lookup (`!baseUrl` throws),
`{accountId}` substitution, then base URL `++ "/" ++` sub-path. -/
def DefaultAdapter.constructTargetUrl
    (accountId providerName providerPath _originalUrl : String) :
    Except String String :=
  let baseUrl := findVal PROVIDER_BASE_URLS providerName
  if !(truthy baseUrl) then
    .error ("Unsupported provider: " ++ providerName)
  else
    let finalBaseUrl := replaceFirst (baseUrl.getD "") "{accountId}" accountId
    .ok (finalBaseUrl ++ "/" ++ providerPath)

/-- `DefaultAdapter.transformHeaders`: delete `cf-aig-authorization`, delete
`host`, then strip every `cf-aig-*` header (case-insensitive). -/
def DefaultAdapter.transformHeaders (headers : Headers) : Headers :=
  stripCfAig (eraseKey "host" (eraseKey "cf-aig-authorization" headers))

/-- `AzureOpenAIAdapter.constructTargetUrl`: sub-path must split into at
least resource and deployment; remaining segments are rejoined; the original
URL's query string is appended verbatim. -/
def AzureOpenAIAdapter.constructTargetUrl
    (_accountId _providerName providerPath originalUrl : String) :
    Except String String :=
  let pathParts := jsSplit '/' providerPath
  if pathParts.length < 2 then
    .error "Azure OpenAI path must include resource_name and deployment_name"
  else
    let resourceName := pathParts.getD 0 ""
    let deploymentName := pathParts.getD 1 ""
    let restOfPath := "/".intercalate (pathParts.drop 2)
    let queryString := queryStringOf originalUrl
    .ok ("https://" ++ resourceName ++ ".openai.azure.com/openai/deployments/"
      ++ deploymentName ++ "/" ++ restOfPath ++ queryString)

/-- `AzureOpenAIAdapter.transformHeaders`: delete `cf-aig-authorization` and
`host`; when `transformed.authorization || transformed.Authorization` is
truthy, set `api-key` to the token when the selected value has the
`Bearer ` prefix and delete both `authorization` keys; finally strip every
`cf-aig-*` header. -/
def AzureOpenAIAdapter.transformHeaders (headers : Headers) : Headers :=
  let transformed := eraseKey "host" (eraseKey "cf-aig-authorization" headers)
  let a := findVal transformed "authorization"
  let b := findVal transformed "Authorization"
  let transformed2 :=
    if truthy a || truthy b then
      let authHeader := if truthy a then a else b
      let withKey :=
        if truthy authHeader && jsStartsWith (authHeader.getD "") "Bearer " then
          setKey "api-key" (jsDrop (authHeader.getD "") 7) transformed
        else transformed
      eraseKey "Authorization" (eraseKey "authorization" withKey)
    else transformed
  stripCfAig transformed2

/-- The headers after the two unconditional deletes at the top of
`AzureOpenAIAdapter.transformHeaders`. -/
def azurePre (h : Headers) : Headers :=
  eraseKey "host" (eraseKey "cf-aig-authorization" h)

/-- The value `transformed.authorization || transformed.Authorization`
selected inside `AzureOpenAIAdapter.transformHeaders`. -/
def azureSel (h : Headers) : Option String :=
  if truthy (findVal (azurePre h) "authorization") then findVal (azurePre h) "authorization"
  else findVal (azurePre h) "Authorization"

/-- Truthiness of the `if (transformed.authorization || transformed.Authorization)`
test inside `AzureOpenAIAdapter.transformHeaders`. -/
def azureCond (h : Headers) : Bool :=
  truthy (findVal (azurePre h) "authorization") || truthy (findVal (azurePre h) "Authorization")

/-- `BedrockAdapter.constructTargetUrl`: first segment is the region, the
rest are rejoined; the `pathParts.length < 1` guard mirrors the source even
though a split never produces zero segments. -/
def BedrockAdapter.constructTargetUrl
    (_accountId _providerName providerPath _originalUrl : String) :
    Except String String :=
  let pathParts := jsSplit '/' providerPath
  if pathParts.length < 1 then
    .error "Bedrock path must include region"
  else
    let region := pathParts.getD 0 ""
    let restOfPath := "/".intercalate (pathParts.drop 1)
    .ok ("https://bedrock-runtime." ++ region ++ ".amazonaws.com/" ++ restOfPath)

/-- `BedrockAdapter.transformHeaders`: delete `cf-aig-authorization` and
`host`, strip `cf-aig-*`, keep everything else (AWS signature headers). -/
def BedrockAdapter.transformHeaders (headers : Headers) : Headers :=
  stripCfAig (eraseKey "host" (eraseKey "cf-aig-authorization" headers))

/-- Gateway configuration record (`AIGateway`); `collect_logs` is the field
the auth middleware uses as the `requiresAuth` flag (the source comments
call it "a proxy for authentication_enabled"). -/
structure AIGateway where
  id : String
  collect_logs : Bool
  cache_ttl : Nat
deriving DecidableEq

/-- Outcome of the auth gate: `next()` or a terminal JSON error response
`res.status(status).json({error, message})`. -/
inductive AuthDecision where
  | allowed : AuthDecision
  | rejected (status : Nat) (error message : String) : AuthDecision
deriving DecidableEq

/-- `AuthMiddleware.validateAuth`: allow when `!gateway.collect_logs`;
otherwise require a truthy `cf-aig-authorization` header, the `Bearer `
prefix, and a token that is non-empty after trimming. -/
def AuthMiddleware.validateAuth (gateway : AIGateway) (headers : Headers) :
    AuthDecision :=
  if !gateway.collect_logs then .allowed
  else
    let authHeader := findVal headers "cf-aig-authorization"
    if !(truthy authHeader) then
      .rejected 401 "Unauthorized" "cf-aig-authorization header is required"
    else
      let s := authHeader.getD ""
      if !(jsStartsWith s "Bearer ") then
        .rejected 401 "Unauthorized"
          "cf-aig-authorization header must start with \"Bearer \""
      else
        let token := jsDrop s 7
        if token == "" || jsTrim token == "" then
          .rejected 403 "Forbidden" "Invalid authorization token"
        else .allowed

/-- One cache slot: a gateway record plus the `Date.now()` at which it was
stored. -/
structure CacheEntry where
  gateway : AIGateway
  timestamp : Nat
deriving DecidableEq

/-- The `Map<string, CacheEntry>` held by `GatewayConfigService`. -/
abbrev Cache := List (String × CacheEntry)

/-- `Map.prototype.get`. -/
def Cache.get (c : Cache) (k : String) : Option CacheEntry :=
  (c.find? (fun p => p.1 == k)).map (fun p => p.2)

/-- `Map.prototype.set`: replace in place when the key exists, else append. -/
def Cache.set (c : Cache) (k : String) (v : CacheEntry) : Cache :=
  if c.any (fun p => p.1 == k) then
    c.map (fun p => if p.1 == k then (k, v) else p)
  else c ++ [(k, v)]

/-- `cacheTTL = 5 * 60 * 1000` milliseconds. -/
def cacheTTL : Nat := 5 * 60 * 1000

/-- Observable outcome of one `getGatewayConfig` call: the returned value
(`null` as `none`), the cache state afterwards, and how many times the
external `gatewayClient.getGateway` fetch ran. -/
structure GetOutcome where
  result : Option AIGateway
  cache : Cache
  fetches : Nat
deriving DecidableEq

/-- `GatewayConfigService.getGatewayConfig`.  `t1` is the `Date.now()` of
the freshness check, `t2` the `Date.now()` stored on a successful fetch;
`fetch` is the outcome of the (at most one) external fetch: `some gw` for
success, `none` when `getGateway` throws.  JavaScript's possibly negative
`Date.now() - timestamp` compares below `cacheTTL` exactly when the
truncated `Nat` difference does, since `cacheTTL > 0`. -/
def GatewayConfigService.getGatewayConfig (cache : Cache) (gatewayId : String)
    (t1 t2 : Nat) (fetch : Option AIGateway) : GetOutcome :=
  let cachedEntry := Cache.get cache gatewayId
  match cachedEntry with
  | some entry =>
    if t1 - entry.timestamp < cacheTTL then
      ⟨some entry.gateway, cache, 0⟩
    else
      match fetch with
      | some gw => ⟨some gw, Cache.set cache gatewayId ⟨gw, t2⟩, 1⟩
      | none => ⟨some entry.gateway, cache, 1⟩
  | none =>
    match fetch with
    | some gw => ⟨some gw, Cache.set cache gatewayId ⟨gw, t2⟩, 1⟩
    | none => ⟨none, cache, 1⟩

/-! ### Lookup lemmas for the header-map operations -/

/-- Removing entries whose keys fail `q` does not change the first entry
with a key `k` that satisfies `q`. -/
theorem find_key_filter (q : String → Bool) (l : Headers) (k : String)
    (hq : q k = true) :
    (l.filter (fun p => q p.1)).find? (fun p => p.1 == k) =
      l.find? (fun p => p.1 == k) := by
  induction l with
  | nil => rfl
  | cons a t ih =>
    by_cases hak : a.1 = k
    · have hqa : q a.1 = true := by rw [hak]; exact hq
      rw [List.filter_cons_of_pos (by simpa using hqa),
          List.find?_cons_of_pos _ (by simpa using hak),
          List.find?_cons_of_pos _ (by simpa using hak)]
    · by_cases hqa : q a.1
      · rw [List.filter_cons_of_pos (by simpa using hqa),
            List.find?_cons_of_neg _ (by simpa using hak),
            List.find?_cons_of_neg _ (by simpa using hak), ih]
      · rw [List.filter_cons_of_neg (by simpa using hqa),
            List.find?_cons_of_neg _ (by simpa using hak), ih]

/-- Filtering by a predicate on keys commutes with lookup: the first entry
with key `k` survives exactly when `q k` holds. -/
theorem findVal_filterKey (q : String → Bool) (l : Headers) (k : String) :
    findVal (l.filter (fun p => q p.1)) k =
      if q k then findVal l k else none := by
  by_cases hq : q k
  · simp only [hq, if_true, findVal, find_key_filter q l k hq]
  · have hnone : (l.filter (fun p => q p.1)).find? (fun p => p.1 == k) = none := by
      rw [List.find?_eq_none]
      intro x hx hxk
      have hxq : q x.1 = true := by simpa using List.of_mem_filter hx
      have hx1 : x.1 = k := by simpa using hxk
      rw [hx1] at hxq
      exact hq hxq
    simp [findVal, hnone, hq]

/-- Lookup after `delete obj[k0]`. -/
theorem findVal_eraseKey (k0 k : String) (l : Headers) :
    findVal (eraseKey k0 l) k = if k = k0 then none else findVal l k := by
  have h := findVal_filterKey (fun s => !(s == k0)) l k
  simp only [eraseKey]
  rw [h]
  by_cases hk : k = k0 <;> simp [hk]

/-- Lookup after stripping the `cf-aig-*` headers. -/
theorem findVal_stripCfAig (l : Headers) (k : String) :
    findVal (stripCfAig l) k =
      if jsStartsWith (jsToLower k) "cf-aig-" then none else findVal l k := by
  have h := findVal_filterKey (fun s => !(jsStartsWith (jsToLower s) "cf-aig-")) l k
  simp only [stripCfAig]
  rw [h]
  by_cases hk : jsStartsWith (jsToLower k) "cf-aig-" <;> simp [hk]

/-- In-place update of key `k` puts `(k, v)` at the first entry with key
`k`, provided such an entry exists. -/
theorem find_key_map_update_self (k v : String) (l : Headers)
    (h : l.any (fun p => p.1 == k) = true) :
    (l.map (fun p => if p.1 == k then (k, v) else p)).find? (fun p => p.1 == k) =
      some (k, v) := by
  induction l with
  | nil => simp at h
  | cons a t ih =>
    by_cases hak : a.1 = k
    · have h1 : (a.1 == k) = true := by simpa using hak
      rw [List.map_cons]
      simp only [h1, if_true]
      exact List.find?_cons_of_pos _ (by simp)
    · have h1 : (a.1 == k) = false := by simpa using hak
      simp only [List.any_cons, h1, Bool.false_or] at h
      rw [List.map_cons]
      simp only [h1, Bool.false_eq_true, if_false]
      rw [List.find?_cons_of_neg _ (by simpa using hak), ih h]

/-- In-place update of key `k` leaves the first entry of any other key
unchanged. -/
theorem find_key_map_update_other (k v k2 : String) (l : Headers)
    (hne : k2 ≠ k) :
    (l.map (fun p => if p.1 == k then (k, v) else p)).find? (fun p => p.1 == k2) =
      l.find? (fun p => p.1 == k2) := by
  induction l with
  | nil => rfl
  | cons a t ih =>
    by_cases hak : a.1 = k
    · have h1 : (a.1 == k) = true := by simpa using hak
      have h2 : ¬((k, v).1 = k2) := fun hc => hne (by simpa using hc.symm)
      have h3 : ¬(a.1 = k2) := by rw [hak]; exact fun hc => hne hc.symm
      rw [List.map_cons]
      simp only [h1, if_true]
      rw [List.find?_cons_of_neg _ (by simpa using h2),
          List.find?_cons_of_neg _ (by simpa using h3), ih]
    · have h1 : (a.1 == k) = false := by simpa using hak
      rw [List.map_cons]
      simp only [h1, Bool.false_eq_true, if_false]
      by_cases hak2 : a.1 = k2
      · rw [List.find?_cons_of_pos _ (by simpa using hak2),
            List.find?_cons_of_pos _ (by simpa using hak2)]
      · rw [List.find?_cons_of_neg _ (by simpa using hak2),
            List.find?_cons_of_neg _ (by simpa using hak2), ih]

/-- Appending a fresh `(k, v)` entry to a list without key `k` makes it the
first entry with key `k`. -/
theorem find_key_append_new (k v : String) (l : Headers)
    (h : l.any (fun p => p.1 == k) = false) :
    (l ++ [(k, v)]).find? (fun p => p.1 == k) = some (k, v) := by
  induction l with
  | nil =>
    rw [List.nil_append]
    have hk : ((k, v).1 == k) = true := by simp
    exact List.find?_cons_of_pos _ hk
  | cons a t ih =>
    simp only [List.any_cons, Bool.or_eq_false_iff] at h
    rw [List.cons_append, List.find?_cons_of_neg _ (by simp [h.1]), ih h.2]

/-- Appending a `(k, v)` entry does not affect lookups of other keys that
hit an entry of `l`; when they miss, the appended entry also misses. -/
theorem find_key_append_other (k v k2 : String) (l : Headers)
    (hne : k2 ≠ k) :
    (l ++ [(k, v)]).find? (fun p => p.1 == k2) = l.find? (fun p => p.1 == k2) := by
  rw [List.find?_append]
  have h2 : List.find? (fun p => p.1 == k2) [(k, v)] = none := by
    rw [List.find?_eq_none]
    intro x hx hxk
    simp at hx
    rw [hx] at hxk
    have hk : k = k2 := by simpa using hxk
    exact hne hk.symm
  rw [h2]
  cases l.find? (fun p => p.1 == k2) <;> rfl

/-- Lookup of the key just written by `obj[k] = v`. -/
theorem findVal_setKey_self (k v : String) (l : Headers) :
    findVal (setKey k v l) k = some v := by
  unfold setKey
  by_cases hany : l.any (fun p => p.1 == k) = true
  · rw [if_pos hany]
    unfold findVal
    rw [find_key_map_update_self k v l hany]
    rfl
  · rw [if_neg hany]
    have hfalse : l.any (fun p => p.1 == k) = false := by
      cases hb : l.any (fun p => p.1 == k)
      · rfl
      · exact absurd hb hany
    unfold findVal
    rw [find_key_append_new k v l hfalse]
    rfl

/-- Lookup of a different key is unchanged by `obj[k] = v`. -/
theorem findVal_setKey_ne (k k2 v : String) (l : Headers) (h : k2 ≠ k) :
    findVal (setKey k v l) k2 = findVal l k2 := by
  unfold setKey
  by_cases hany : l.any (fun p => p.1 == k) = true
  · rw [if_pos hany]
    unfold findVal
    rw [find_key_map_update_other k v k2 l h]
  · rw [if_neg hany]
    unfold findVal
    rw [find_key_append_other k v k2 l h]

/-! ### Key-absence and filter-absorption lemmas -/

/-- No entry of `l` has key `k`. -/
def KeyAbsent (k : String) (l : Headers) : Prop := ∀ p ∈ l, p.1 ≠ k

/-- Deleting an absent key is a no-op on the list itself. -/
theorem eraseKey_eq_self (k : String) (l : Headers) (h : KeyAbsent k l) :
    eraseKey k l = l :=
  List.filter_eq_self.mpr (fun p hp => by simp [h p hp])

/-- Lookup of an absent key misses. -/
theorem findVal_eq_none_of_keyAbsent (k : String) (l : Headers)
    (h : KeyAbsent k l) : findVal l k = none := by
  unfold findVal
  have hn : l.find? (fun p => p.1 == k) = none := by
    rw [List.find?_eq_none]
    intro x hx hxk
    exact h x hx (by simpa using hxk)
  rw [hn]
  rfl

/-- Key absence survives any filtering. -/
theorem keyAbsent_filter (k : String) (q : String × String → Bool)
    (l : Headers) (h : KeyAbsent k l) : KeyAbsent k (l.filter q) :=
  fun p hp => h p (List.mem_of_mem_filter hp)

/-- Deleting key `k` makes it absent. -/
theorem keyAbsent_eraseKey_self (k : String) (l : Headers) :
    KeyAbsent k (eraseKey k l) := by
  intro p hp
  have := List.of_mem_filter hp
  simpa using this

/-- Writing a different key preserves absence of `k`. -/
theorem keyAbsent_setKey (k k2 v : String) (l : Headers) (hne : k2 ≠ k)
    (h : KeyAbsent k l) : KeyAbsent k (setKey k2 v l) := by
  intro p hp
  unfold setKey at hp
  by_cases hany : l.any (fun q => q.1 == k2) = true
  · rw [if_pos hany] at hp
    rcases List.mem_map.mp hp with ⟨q, hq, hqp⟩
    by_cases hqk : q.1 == k2
    · rw [if_pos hqk] at hqp
      rw [← hqp]
      exact hne
    · rw [if_neg hqk] at hqp
      rw [← hqp]
      exact h q hq
  · rw [if_neg hany] at hp
    rcases List.mem_append.mp hp with hq | hq
    · exact h p hq
    · have : p = (k2, v) := by simpa using hq
      rw [this]
      exact hne

/-- A filter absorbs a later filter with a weaker predicate. -/
theorem filter_absorb (q r : String × String → Bool) (l : Headers)
    (h : ∀ p, q p = true → r p = true) :
    (l.filter q).filter r = l.filter q :=
  List.filter_eq_self.mpr (fun p hp => h p (List.of_mem_filter hp))

/-- A key equal to `cf-aig-authorization` starts with the stripped prefix,
so deleting it after the strip is a no-op. -/
theorem eraseKey_cfaig_stripCfAig (l : Headers) :
    eraseKey "cf-aig-authorization" (stripCfAig l) = stripCfAig l := by
  unfold eraseKey stripCfAig
  refine filter_absorb _ _ l (fun p hq => ?_)
  by_cases hk : p.1 == "cf-aig-authorization"
  · have hk2 : p.1 = "cf-aig-authorization" := by simpa using hk
    rw [hk2] at hq
    exact absurd hq (by decide)
  · simpa using hk

/-- Stripping the `cf-aig-*` headers twice is the same as once. -/
theorem stripCfAig_stripCfAig (l : Headers) :
    stripCfAig (stripCfAig l) = stripCfAig l := by
  unfold stripCfAig
  exact filter_absorb _ _ l (fun p hq => hq)

/-- The split worker never returns an empty list of segments. -/
theorem splitGo_ne_nil (sep : Char) (cs : List Char) :
    ∀ acc, splitGo sep cs acc ≠ [] := by
  induction cs with
  | nil =>
    intro acc
    simp [splitGo]
  | cons c cs ih =>
    intro acc
    unfold splitGo
    by_cases h : c == sep
    · rw [if_pos h]
      simp
    · rw [if_neg h]
      exact ih _

/-- `s.split(sep)` always yields at least one segment. -/
theorem jsSplit_length_pos (sep : Char) (s : String) :
    1 ≤ (jsSplit sep s).length := by
  unfold jsSplit
  rw [List.length_map]
  exact List.length_pos.mpr (splitGo_ne_nil sep s.data [])

/-- Key absence survives stripping. -/
theorem keyAbsent_stripCfAig (k : String) (l : Headers) (h : KeyAbsent k l) :
    KeyAbsent k (stripCfAig l) := keyAbsent_filter k _ l h

/-- Key absence survives deleting another key. -/
theorem keyAbsent_eraseKey (k k2 : String) (l : Headers) (h : KeyAbsent k l) :
    KeyAbsent k (eraseKey k2 l) := keyAbsent_filter k _ l h

/-- Deleting a distinct key does not change a lookup. -/
theorem findVal_eraseKey_ne (k0 k : String) (l : Headers) (h : k ≠ k0) :
    findVal (eraseKey k0 l) k = findVal l k := by
  rw [findVal_eraseKey, if_neg h]

/-- Deleting a key makes its lookup miss. -/
theorem findVal_eraseKey_self (k : String) (l : Headers) :
    findVal (eraseKey k l) k = none := by
  rw [findVal_eraseKey, if_pos rfl]

/-- A non-gateway key survives the `cf-aig-*` strip. -/
theorem findVal_stripCfAig_keep (l : Headers) (k : String)
    (hk : jsStartsWith (jsToLower k) "cf-aig-" = false) :
    findVal (stripCfAig l) k = findVal l k := by
  rw [findVal_stripCfAig, if_neg (by simp [hk])]

/-- A gateway key is removed by the `cf-aig-*` strip. -/
theorem findVal_stripCfAig_drop (l : Headers) (k : String)
    (hk : jsStartsWith (jsToLower k) "cf-aig-" = true) :
    findVal (stripCfAig l) k = none := by
  rw [findVal_stripCfAig, if_pos hk]

/-- The two initial deletes of the Azure transform touch neither
`authorization` key nor any other distinct key. -/
theorem findVal_azurePre (h : Headers) (k : String)
    (h1 : k ≠ "cf-aig-authorization") (h2 : k ≠ "host") :
    findVal (azurePre h) k = findVal h k := by
  unfold azurePre
  rw [findVal_eraseKey_ne _ _ _ h2, findVal_eraseKey_ne _ _ _ h1]

/-- Zeta-reduced form of `AzureOpenAIAdapter.transformHeaders`. -/
theorem azure_unfold (h : Headers) :
    AzureOpenAIAdapter.transformHeaders h =
      stripCfAig
        (if azureCond h then
          eraseKey "Authorization" (eraseKey "authorization"
            (if truthy (azureSel h) && jsStartsWith ((azureSel h).getD "") "Bearer " then
              setKey "api-key" (jsDrop ((azureSel h).getD "") 7) (azurePre h)
            else azurePre h))
        else azurePre h) := rfl

/-- The selection condition, re-expressed on the incoming headers (the two
preceding deletes touch neither `authorization` key). -/
theorem azureCond_eq (h : Headers) :
    azureCond h =
      (truthy (findVal h "authorization") || truthy (findVal h "Authorization")) := by
  unfold azureCond
  rw [findVal_azurePre h "authorization" (by decide) (by decide),
      findVal_azurePre h "Authorization" (by decide) (by decide)]

/-- The selected value, re-expressed on the incoming headers. -/
theorem azureSel_eq (h : Headers) :
    azureSel h =
      (if truthy (findVal h "authorization") then findVal h "authorization"
       else findVal h "Authorization") := by
  unfold azureSel
  rw [findVal_azurePre h "authorization" (by decide) (by decide),
      findVal_azurePre h "Authorization" (by decide) (by decide)]

/-- When the selection condition holds, the selected value is truthy. -/
theorem azureSel_truthy (h : Headers) (hc : azureCond h = true) :
    truthy (azureSel h) = true := by
  unfold azureCond at hc
  unfold azureSel
  by_cases ha : truthy (findVal (azurePre h) "authorization") = true
  · rw [if_pos ha]
    exact ha
  · rw [if_neg ha]
    rcases Bool.or_eq_true_iff.mp hc with hx | hx
    · exact absurd hx ha
    · exact hx

/-! ### Claim theorems -/

/-- C4: the Azure adapter splits the sub-path on `/`; fewer than two
segments fail with the invalid-path error, otherwise the URL is built from
the first segment (resource), the second (deployment), the remaining
segments rejoined, and the original request target's query string
(everything from `?` onward) appended verbatim. -/
theorem azure_constructTargetUrl_contract (acct pn path url : String) :
    ((jsSplit '/' path).length < 2 →
      AzureOpenAIAdapter.constructTargetUrl acct pn path url =
        .error "Azure OpenAI path must include resource_name and deployment_name")
  ∧ (2 ≤ (jsSplit '/' path).length →
      AzureOpenAIAdapter.constructTargetUrl acct pn path url =
        .ok ("https://" ++ (jsSplit '/' path).getD 0 ""
          ++ ".openai.azure.com/openai/deployments/" ++ (jsSplit '/' path).getD 1 ""
          ++ "/" ++ "/".intercalate ((jsSplit '/' path).drop 2)
          ++ queryStringOf url)) := by
  constructor
  · intro hlt
    unfold AzureOpenAIAdapter.constructTargetUrl
    rw [if_pos hlt]
  · intro hge
    unfold AzureOpenAIAdapter.constructTargetUrl
    rw [if_neg (by omega)]

/-- Witness for C4 at the spec's two examples. -/
theorem azure_constructTargetUrl_contract_witness :
    AzureOpenAIAdapter.constructTargetUrl "acct" "azure-openai"
        "myresource/mydeployment/chat/completions"
        "/v1/acct/gw/azure-openai/myresource/mydeployment/chat/completions?api-version=2023-05-15" =
      .ok "https://myresource.openai.azure.com/openai/deployments/mydeployment/chat/completions?api-version=2023-05-15"
  ∧ AzureOpenAIAdapter.constructTargetUrl "acct" "azure-openai" "invalidpath" "/x" =
      .error "Azure OpenAI path must include resource_name and deployment_name" := by
  constructor
  · rw [(azure_constructTargetUrl_contract "acct" "azure-openai"
        "myresource/mydeployment/chat/completions"
        "/v1/acct/gw/azure-openai/myresource/mydeployment/chat/completions?api-version=2023-05-15").2
        (by decide)]
    rfl
  · exact (azure_constructTargetUrl_contract "acct" "azure-openai" "invalidpath" "/x").1
      (by decide)

/-- C5 counterexample: the empty sub-path does not fail — splitting yields
one empty segment, so the guard is not taken and an URL with an empty
region is produced. -/
theorem bedrock_empty_subpath_no_error :
    BedrockAdapter.constructTargetUrl "acct" "aws-bedrock" "" "/x" =
      .ok "https://bedrock-runtime..amazonaws.com/" := rfl

/-- C5 (amended): the Bedrock adapter never fails — splitting always yields
at least one segment, so the zero-segment guard is unreachable; the URL
uses the first segment as region and the rest rejoined; the header
transform removes exactly the `cf-aig-*` headers (case-insensitive) and the
`host` key, passing every other header through unmodified. -/
theorem bedrock_adapter_contract (acct pn path url : String) (h : Headers)
    (k : String) :
    BedrockAdapter.constructTargetUrl acct pn path url =
      .ok ("https://bedrock-runtime." ++ (jsSplit '/' path).getD 0 ""
        ++ ".amazonaws.com/" ++ "/".intercalate ((jsSplit '/' path).drop 1))
  ∧ findVal (BedrockAdapter.transformHeaders h) k =
      (if jsStartsWith (jsToLower k) "cf-aig-" || k == "host" then none
       else findVal h k) := by
  constructor
  · unfold BedrockAdapter.constructTargetUrl
    rw [if_neg (by have := jsSplit_length_pos '/' path; omega)]
  · unfold BedrockAdapter.transformHeaders
    by_cases h1 : jsStartsWith (jsToLower k) "cf-aig-" = true
    · rw [findVal_stripCfAig_drop _ _ h1, if_pos (by simp [h1])]
    · have h1f : jsStartsWith (jsToLower k) "cf-aig-" = false :=
        Bool.eq_false_iff.mpr h1
      rw [findVal_stripCfAig_keep _ _ h1f]
      by_cases h2 : k = "host"
      · subst h2
        rw [findVal_eraseKey_self, if_pos (by simp)]
      · have h3 : k ≠ "cf-aig-authorization" := by
          intro hc
          rw [hc] at h1
          exact h1 (by decide)
        rw [findVal_eraseKey_ne _ _ _ h2, findVal_eraseKey_ne _ _ _ h3,
            if_neg (by simp [h1f, h2])]

/-- C6 counterexample: `azure-openai` is present in the base-URL table but
mapped to the empty string, and the generic adapter then fails instead of
returning `"" ++ "/" ++ path`. -/
theorem default_present_empty_entry_errors :
    findVal PROVIDER_BASE_URLS "azure-openai" = some ""
  ∧ DefaultAdapter.constructTargetUrl "acct" "azure-openai" "chat/completions" "/x" =
      .error "Unsupported provider: azure-openai" := ⟨by decide, rfl⟩

/-- C6 (amended): the generic adapter fails with the unsupported-provider
error when the name is absent from the table or its entry is the empty
string (the `azure-openai` / `aws-bedrock` placeholders); otherwise it
substitutes the first `{accountId}` placeholder occurrence and returns
base URL `++ "/" ++` sub-path with the sub-path passed through verbatim. -/
theorem default_constructTargetUrl_contract (acct name path url : String) :
    ((findVal PROVIDER_BASE_URLS name = none ∨ findVal PROVIDER_BASE_URLS name = some "") →
      DefaultAdapter.constructTargetUrl acct name path url =
        .error ("Unsupported provider: " ++ name))
  ∧ (∀ b, findVal PROVIDER_BASE_URLS name = some b → b ≠ "" →
      DefaultAdapter.constructTargetUrl acct name path url =
        .ok (replaceFirst b "{accountId}" acct ++ "/" ++ path)) := by
  constructor
  · intro hcase
    unfold DefaultAdapter.constructTargetUrl
    rcases hcase with hc | hc
    · rw [hc]
      rfl
    · rw [hc]
      rfl
  · intro b hb hbne
    unfold DefaultAdapter.constructTargetUrl
    rw [hb]
    rw [if_neg (by simp [truthy, hbne])]
    rfl

/-- Witness for C6 at the spec's `workers-ai` example and an absent name. -/
theorem default_constructTargetUrl_contract_witness :
    DefaultAdapter.constructTargetUrl "account123" "workers-ai"
        "@cf/meta/llama-2-7b-chat-int8" "/x" =
      .ok "https://api.cloudflare.com/client/v4/accounts/account123/ai/run/@cf/meta/llama-2-7b-chat-int8"
  ∧ DefaultAdapter.constructTargetUrl "acct" "made-up-provider" "p" "/x" =
      .error "Unsupported provider: made-up-provider" := by
  constructor
  · rw [(default_constructTargetUrl_contract "account123" "workers-ai"
        "@cf/meta/llama-2-7b-chat-int8" "/x").2
        "https://api.cloudflare.com/client/v4/accounts/{accountId}/ai/run"
        (by decide) (by decide)]
    rfl
  · exact (default_constructTargetUrl_contract "acct" "made-up-provider" "p" "/x").1
      (Or.inl (by decide))

/-- C1 counterexample: a present-but-empty `cf-aig-authorization` header is
falsy, so the gate answers with the header-required message, not the
prefix message the claim prescribes for a present header without the
`Bearer ` prefix. -/
theorem validateAuth_empty_header_value :
    AuthMiddleware.validateAuth ⟨"gw", true, 0⟩ [("cf-aig-authorization", "")] =
      .rejected 401 "Unauthorized" "cf-aig-authorization header is required"
  ∧ AuthMiddleware.validateAuth ⟨"gw", true, 0⟩ [("cf-aig-authorization", "")] ≠
      .rejected 401 "Unauthorized"
        "cf-aig-authorization header must start with \"Bearer \"" :=
  ⟨by decide, by decide⟩

/-- C1 (amended): the auth gate is the case analysis of the claim, except
that a present-but-empty header value is treated like an absent header
(401 header-required), the prefix rejection applying only to non-empty
values. -/
theorem validateAuth_cases (g : AIGateway) (h : Headers) :
    (g.collect_logs = false → AuthMiddleware.validateAuth g h = .allowed)
  ∧ (g.collect_logs = true →
      (findVal h "cf-aig-authorization" = none ∨
        findVal h "cf-aig-authorization" = some "") →
      AuthMiddleware.validateAuth g h =
        .rejected 401 "Unauthorized" "cf-aig-authorization header is required")
  ∧ (∀ s, g.collect_logs = true → findVal h "cf-aig-authorization" = some s →
      s ≠ "" → jsStartsWith s "Bearer " = false →
      AuthMiddleware.validateAuth g h =
        .rejected 401 "Unauthorized"
          "cf-aig-authorization header must start with \"Bearer \"")
  ∧ (∀ s, g.collect_logs = true → findVal h "cf-aig-authorization" = some s →
      jsStartsWith s "Bearer " = true → jsTrim (jsDrop s 7) = "" →
      AuthMiddleware.validateAuth g h =
        .rejected 403 "Forbidden" "Invalid authorization token")
  ∧ (∀ s, g.collect_logs = true → findVal h "cf-aig-authorization" = some s →
      jsStartsWith s "Bearer " = true → jsTrim (jsDrop s 7) ≠ "" →
      AuthMiddleware.validateAuth g h = .allowed) := by
  have hne : ∀ s : String, jsStartsWith s "Bearer " = true → s ≠ "" := by
    intro s hs hc
    rw [hc] at hs
    exact absurd hs (by decide)
  refine ⟨?_, ?_, ?_, ?_, ?_⟩
  · intro hflag
    unfold AuthMiddleware.validateAuth
    rw [hflag]
    rfl
  · intro hflag hfind
    unfold AuthMiddleware.validateAuth
    rw [hflag]
    rcases hfind with hf | hf
    · rw [hf]
      rfl
    · rw [hf]
      rfl
  · intro s hflag hfind hsne hpre
    unfold AuthMiddleware.validateAuth
    rw [hflag, hfind]
    have ht : truthy (some s) = true := by simp [truthy, hsne]
    simp [ht, hpre]
  · intro s hflag hfind hpre htrim
    unfold AuthMiddleware.validateAuth
    rw [hflag, hfind]
    have ht : truthy (some s) = true := by simp [truthy, hne s hpre]
    simp [ht, hpre, htrim]
  · intro s hflag hfind hpre htrim
    unfold AuthMiddleware.validateAuth
    rw [hflag, hfind]
    have ht : truthy (some s) = true := by simp [truthy, hne s hpre]
    have hd : jsDrop s 7 ≠ "" := by
      intro hc
      rw [hc] at htrim
      exact htrim rfl
    simp [ht, hpre, htrim, hd]

/-- Witness for C1 over all five branches. -/
theorem validateAuth_cases_witness :
    AuthMiddleware.validateAuth ⟨"gw", false, 0⟩ [("x", "y")] = .allowed
  ∧ AuthMiddleware.validateAuth ⟨"gw", true, 0⟩ [] =
      .rejected 401 "Unauthorized" "cf-aig-authorization header is required"
  ∧ AuthMiddleware.validateAuth ⟨"gw", true, 0⟩
        [("cf-aig-authorization", "InvalidFormat token")] =
      .rejected 401 "Unauthorized"
        "cf-aig-authorization header must start with \"Bearer \""
  ∧ AuthMiddleware.validateAuth ⟨"gw", true, 0⟩ [("cf-aig-authorization", "Bearer ")] =
      .rejected 403 "Forbidden" "Invalid authorization token"
  ∧ AuthMiddleware.validateAuth ⟨"gw", true, 0⟩
        [("cf-aig-authorization", "Bearer tok")] = .allowed :=
  ⟨(validateAuth_cases ⟨"gw", false, 0⟩ [("x", "y")]).1 rfl,
   (validateAuth_cases ⟨"gw", true, 0⟩ []).2.1 rfl (Or.inl (by decide)),
   (validateAuth_cases ⟨"gw", true, 0⟩ [("cf-aig-authorization", "InvalidFormat token")]).2.2.1
     "InvalidFormat token" rfl (by decide) (by decide) (by decide),
   (validateAuth_cases ⟨"gw", true, 0⟩ [("cf-aig-authorization", "Bearer ")]).2.2.2.1
     "Bearer " rfl (by decide) (by decide) (by decide),
   (validateAuth_cases ⟨"gw", true, 0⟩ [("cf-aig-authorization", "Bearer tok")]).2.2.2.2
     "Bearer tok" rfl (by decide) (by decide) (by decide)⟩

/-- C2: the cache `get` contract — a fresh entry (age strictly below the
5-minute TTL) is returned with no fetch; on a miss or an expired entry
exactly one fetch runs; fetch success stores the config with the current
timestamp (overwriting any prior entry) and returns it; fetch failure
returns the stale entry when one exists, and `none` (NotFound) when none
does. -/
theorem getGatewayConfig_contract (cache : Cache) (id : String) (t1 t2 : Nat)
    (fetch : Option AIGateway) :
    (∀ e, Cache.get cache id = some e → t1 - e.timestamp < cacheTTL →
      GatewayConfigService.getGatewayConfig cache id t1 t2 fetch =
        ⟨some e.gateway, cache, 0⟩)
  ∧ ((Cache.get cache id = none ∨
        (∃ e, Cache.get cache id = some e ∧ cacheTTL ≤ t1 - e.timestamp)) →
      ((GatewayConfigService.getGatewayConfig cache id t1 t2 fetch).fetches = 1
      ∧ (∀ gw, fetch = some gw →
          GatewayConfigService.getGatewayConfig cache id t1 t2 fetch =
            ⟨some gw, Cache.set cache id ⟨gw, t2⟩, 1⟩)
      ∧ (fetch = none → ∀ e, Cache.get cache id = some e →
          GatewayConfigService.getGatewayConfig cache id t1 t2 fetch =
            ⟨some e.gateway, cache, 1⟩)
      ∧ (fetch = none → Cache.get cache id = none →
          GatewayConfigService.getGatewayConfig cache id t1 t2 fetch =
            ⟨none, cache, 1⟩))) := by
  constructor
  · intro e he hfresh
    unfold GatewayConfigService.getGatewayConfig
    rw [he]
    simp only [if_pos hfresh]
  · intro hmiss
    have hbranch :
        GatewayConfigService.getGatewayConfig cache id t1 t2 fetch =
          (match fetch with
           | some gw => (⟨some gw, Cache.set cache id ⟨gw, t2⟩, 1⟩ : GetOutcome)
           | none =>
             match Cache.get cache id with
             | some e => ⟨some e.gateway, cache, 1⟩
             | none => ⟨none, cache, 1⟩) := by
      unfold GatewayConfigService.getGatewayConfig
      rcases hmiss with hc | ⟨e, he, hexp⟩
      · rw [hc]
      · have hnf : ¬(t1 - e.timestamp < cacheTTL) := by omega
        rw [he]
        simp only [hnf, if_false]
    refine ⟨?_, ?_, ?_, ?_⟩
    · rw [hbranch]
      rcases hf : fetch with _ | gw
      · rcases hc : Cache.get cache id with _ | e <;> rfl
      · rfl
    · intro gw hf
      rw [hbranch, hf]
    · intro hf e he
      rw [hbranch, hf, he]
    · intro hf hc
      rw [hbranch, hf, hc]

/-- Witness for C2: fresh hit, successful refresh, stale fallback and true
miss at concrete cache states. -/
theorem getGatewayConfig_contract_witness :
    GatewayConfigService.getGatewayConfig
        [("gw", ⟨⟨"gw", false, 0⟩, 1000⟩)] "gw" 1500 1500 none =
      ⟨some ⟨"gw", false, 0⟩, [("gw", ⟨⟨"gw", false, 0⟩, 1000⟩)], 0⟩
  ∧ GatewayConfigService.getGatewayConfig [] "gw" 50 60 (some ⟨"gw", true, 9⟩) =
      ⟨some ⟨"gw", true, 9⟩, [("gw", ⟨⟨"gw", true, 9⟩, 60⟩)], 1⟩
  ∧ GatewayConfigService.getGatewayConfig
        [("gw", ⟨⟨"gw", false, 0⟩, 1000⟩)] "gw" 301001 301002 none =
      ⟨some ⟨"gw", false, 0⟩, [("gw", ⟨⟨"gw", false, 0⟩, 1000⟩)], 1⟩
  ∧ GatewayConfigService.getGatewayConfig [] "gw" 50 60 none = ⟨none, [], 1⟩ := by
  refine ⟨?_, ?_, ?_, ?_⟩
  · exact (getGatewayConfig_contract _ "gw" 1500 1500 none).1
      ⟨⟨"gw", false, 0⟩, 1000⟩ (by decide) (by decide)
  · have h2 := ((getGatewayConfig_contract [] "gw" 50 60 (some ⟨"gw", true, 9⟩)).2
      (Or.inl (by decide))).2.1 ⟨"gw", true, 9⟩ rfl
    rw [h2]
    rfl
  · exact ((getGatewayConfig_contract _ "gw" 301001 301002 none).2
      (Or.inr ⟨⟨⟨"gw", false, 0⟩, 1000⟩, by decide, by decide⟩)).2.2.1 rfl
      ⟨⟨"gw", false, 0⟩, 1000⟩ (by decide)
  · exact ((getGatewayConfig_contract [] "gw" 50 60 none).2
      (Or.inl (by decide))).2.2.2 rfl (by decide)

/-- C9: when the fetch fails and a stale entry exists, the whole outcome
keeps the cache untouched (config and original timestamp preserved), so a
later `get` past the TTL fetches again instead of treating the entry as
fresh. -/
theorem stale_fallback_preserves_cache (cache : Cache) (id : String)
    (t1 t2 : Nat) (e : CacheEntry) (hget : Cache.get cache id = some e)
    (hexp : cacheTTL ≤ t1 - e.timestamp) :
    GatewayConfigService.getGatewayConfig cache id t1 t2 none =
      ⟨some e.gateway, cache, 1⟩
  ∧ (∀ t3 t4 f, cacheTTL ≤ t3 - e.timestamp →
      (GatewayConfigService.getGatewayConfig
        (GatewayConfigService.getGatewayConfig cache id t1 t2 none).cache
        id t3 t4 f).fetches = 1) := by
  have hmain : GatewayConfigService.getGatewayConfig cache id t1 t2 none =
      ⟨some e.gateway, cache, 1⟩ := by
    unfold GatewayConfigService.getGatewayConfig
    have hnf : ¬(t1 - e.timestamp < cacheTTL) := by omega
    rw [hget]
    simp only [hnf, if_false]
  refine ⟨hmain, ?_⟩
  intro t3 t4 f hexp3
  rw [hmain]
  exact ((getGatewayConfig_contract cache id t3 t4 f).2 (Or.inr ⟨e, hget, hexp3⟩)).1

/-- Witness for C9 at a concrete expired entry. -/
theorem stale_fallback_preserves_cache_witness :
    GatewayConfigService.getGatewayConfig
        [("gw", ⟨⟨"gw", false, 0⟩, 1000⟩)] "gw" 301001 301002 none =
      ⟨some ⟨"gw", false, 0⟩, [("gw", ⟨⟨"gw", false, 0⟩, 1000⟩)], 1⟩
  ∧ (GatewayConfigService.getGatewayConfig
      (GatewayConfigService.getGatewayConfig
        [("gw", ⟨⟨"gw", false, 0⟩, 1000⟩)] "gw" 301001 301002 none).cache
      "gw" 602000 602001 none).fetches = 1 := by
  have h := stale_fallback_preserves_cache
    [("gw", ⟨⟨"gw", false, 0⟩, 1000⟩)] "gw" 301001 301002
    ⟨⟨"gw", false, 0⟩, 1000⟩ (by decide) (by decide)
  exact ⟨h.1, h.2 602000 602001 none (by decide)⟩

/-- Every entry surviving the final `cf-aig-*` strip has a non-gateway key. -/
theorem mem_stripCfAig (l : Headers) (p : String × String)
    (hp : p ∈ stripCfAig l) : jsStartsWith (jsToLower p.1) "cf-aig-" = false := by
  have := List.of_mem_filter hp
  simpa using this

/-- C7: for all three adapters, no forwarded header key case-insensitively
starts with `cf-aig-` — in particular `cf-aig-authorization` is never
forwarded, under any casing. -/
theorem no_cfaig_header_forwarded (h : Headers) (p : String × String) :
    (p ∈ DefaultAdapter.transformHeaders h →
      jsStartsWith (jsToLower p.1) "cf-aig-" = false)
  ∧ (p ∈ AzureOpenAIAdapter.transformHeaders h →
      jsStartsWith (jsToLower p.1) "cf-aig-" = false)
  ∧ (p ∈ BedrockAdapter.transformHeaders h →
      jsStartsWith (jsToLower p.1) "cf-aig-" = false) := by
  refine ⟨?_, ?_, ?_⟩
  · intro hp
    unfold DefaultAdapter.transformHeaders at hp
    exact mem_stripCfAig _ p hp
  · intro hp
    rw [azure_unfold] at hp
    exact mem_stripCfAig _ p hp
  · intro hp
    unfold BedrockAdapter.transformHeaders at hp
    exact mem_stripCfAig _ p hp

/-- Witness for C7: a surviving entry of each adapter's output, with its
key not of the gateway-control form. -/
theorem no_cfaig_header_forwarded_witness :
    (("content-type", "application/json") ∈
        DefaultAdapter.transformHeaders
          [("content-type", "application/json"), ("CF-AIG-Custom", "x")]
      ∧ jsStartsWith (jsToLower "content-type") "cf-aig-" = false)
  ∧ (("content-type", "application/json") ∈
        AzureOpenAIAdapter.transformHeaders
          [("content-type", "application/json"), ("cf-aig-authorization", "Bearer t")]
      ∧ jsStartsWith (jsToLower "content-type") "cf-aig-" = false)
  ∧ (("x-amz-date", "20240101") ∈
        BedrockAdapter.transformHeaders
          [("x-amz-date", "20240101"), ("cf-aig-authorization", "Bearer t")]
      ∧ jsStartsWith (jsToLower "x-amz-date") "cf-aig-" = false) :=
  ⟨⟨by decide, (no_cfaig_header_forwarded
      [("content-type", "application/json"), ("CF-AIG-Custom", "x")]
      ("content-type", "application/json")).1 (by decide)⟩,
   ⟨by decide, (no_cfaig_header_forwarded
      [("content-type", "application/json"), ("cf-aig-authorization", "Bearer t")]
      ("content-type", "application/json")).2.1 (by decide)⟩,
   ⟨by decide, (no_cfaig_header_forwarded
      [("x-amz-date", "20240101"), ("cf-aig-authorization", "Bearer t")]
      ("x-amz-date", "20240101")).2.2 (by decide)⟩⟩

/-- Lookup through the conditional `api-key` write of the Azure transform,
for keys other than `api-key`. -/
theorem findVal_azureW (h : Headers) (k : String) (hk : k ≠ "api-key") :
    findVal
      (if truthy (azureSel h) && jsStartsWith ((azureSel h).getD "") "Bearer " then
        setKey "api-key" (jsDrop ((azureSel h).getD "") 7) (azurePre h)
      else azurePre h) k = findVal (azurePre h) k := by
  by_cases hb : (truthy (azureSel h) && jsStartsWith ((azureSel h).getD "") "Bearer ") = true
  · rw [if_pos hb, findVal_setKey_ne _ _ _ _ hk]
  · rw [if_neg hb]

/-- C3 counterexample: a non-Bearer `authorization` credential is removed
by the Azure transform (the whole singleton map maps to the empty map),
where the claim says it is left in place. -/
theorem azure_nonBearer_authorization_removed :
    AzureOpenAIAdapter.transformHeaders [("authorization", "Basic dXNlcjpwYXNz")] = []
  ∧ findVal (AzureOpenAIAdapter.transformHeaders
      [("authorization", "Basic dXNlcjpwYXNz")]) "authorization" = none :=
  ⟨by decide, by decide⟩

/-- C3 (amended): the Azure transform strips gateway headers like the
generic adapter; it matches only the exact keys `authorization` and
`Authorization` (not other casings); when either holds a non-empty value it
removes both keys and, only when the selected value (lowercase key first)
has the `Bearer ` prefix, adds `api-key` with the remaining token; with no
non-empty `authorization`/`Authorization` value the headers are otherwise
unmodified. -/
theorem azure_transformHeaders_cases (h : Headers) :
    (∀ k, jsStartsWith (jsToLower k) "cf-aig-" = true →
      findVal (AzureOpenAIAdapter.transformHeaders h) k = none)
  ∧ findVal (AzureOpenAIAdapter.transformHeaders h) "host" = none
  ∧ (azureCond h = false →
      ∀ k, jsStartsWith (jsToLower k) "cf-aig-" = false → k ≠ "host" →
        findVal (AzureOpenAIAdapter.transformHeaders h) k = findVal h k)
  ∧ (azureCond h = true →
        findVal (AzureOpenAIAdapter.transformHeaders h) "authorization" = none
      ∧ findVal (AzureOpenAIAdapter.transformHeaders h) "Authorization" = none
      ∧ (∀ s, azureSel h = some s →
          (jsStartsWith s "Bearer " = true →
            findVal (AzureOpenAIAdapter.transformHeaders h) "api-key" =
              some (jsDrop s 7))
          ∧ (jsStartsWith s "Bearer " = false →
            findVal (AzureOpenAIAdapter.transformHeaders h) "api-key" =
              findVal h "api-key"))
      ∧ (∀ k, jsStartsWith (jsToLower k) "cf-aig-" = false → k ≠ "host" →
          k ≠ "authorization" → k ≠ "Authorization" → k ≠ "api-key" →
          findVal (AzureOpenAIAdapter.transformHeaders h) k = findVal h k)) := by
  refine ⟨?_, ?_, ?_, ?_⟩
  · intro k hk
    rw [azure_unfold, findVal_stripCfAig_drop _ _ hk]
  · rw [azure_unfold]
    by_cases hc : azureCond h = true
    · rw [if_pos hc, findVal_stripCfAig_keep _ _ (by decide),
          findVal_eraseKey_ne _ _ _ (by decide),
          findVal_eraseKey_ne _ _ _ (by decide),
          findVal_azureW h "host" (by decide)]
      unfold azurePre
      rw [findVal_eraseKey_self]
    · rw [if_neg hc, findVal_stripCfAig_keep _ _ (by decide)]
      unfold azurePre
      rw [findVal_eraseKey_self]
  · intro hc k hk hkh
    have hkc : k ≠ "cf-aig-authorization" := by
      intro he
      rw [he] at hk
      exact absurd hk (by decide)
    rw [azure_unfold, if_neg (by simp [hc]), findVal_stripCfAig_keep _ _ hk,
        findVal_azurePre h k hkc hkh]
  · intro hc
    have ht : truthy (azureSel h) = true := azureSel_truthy h hc
    refine ⟨?_, ?_, ?_, ?_⟩
    · rw [azure_unfold, if_pos hc, findVal_stripCfAig_keep _ _ (by decide),
          findVal_eraseKey_ne _ _ _ (by decide), findVal_eraseKey_self]
    · rw [azure_unfold, if_pos hc, findVal_stripCfAig_keep _ _ (by decide),
          findVal_eraseKey_self]
    · intro s hsel
      constructor
      · intro hbear
        have hb : (truthy (azureSel h) &&
            jsStartsWith ((azureSel h).getD "") "Bearer ") = true := by
          rw [hsel] at ht ⊢
          simp [ht, hbear]
        rw [azure_unfold, if_pos hc, findVal_stripCfAig_keep _ _ (by decide),
            findVal_eraseKey_ne _ _ _ (by decide),
            findVal_eraseKey_ne _ _ _ (by decide), if_pos hb,
            findVal_setKey_self, hsel]
        rfl
      · intro hbear
        have hb : (truthy (azureSel h) &&
            jsStartsWith ((azureSel h).getD "") "Bearer ") = false := by
          rw [hsel]
          simp [hbear]
        rw [azure_unfold, if_pos hc, findVal_stripCfAig_keep _ _ (by decide),
            findVal_eraseKey_ne _ _ _ (by decide),
            findVal_eraseKey_ne _ _ _ (by decide), if_neg (by simp [hb]),
            findVal_azurePre h "api-key" (by decide) (by decide)]
    · intro k hk hkh hka hkA hkapi
      have hkc : k ≠ "cf-aig-authorization" := by
        intro he
        rw [he] at hk
        exact absurd hk (by decide)
      rw [azure_unfold, if_pos hc, findVal_stripCfAig_keep _ _ hk,
          findVal_eraseKey_ne _ _ _ hkA, findVal_eraseKey_ne _ _ _ hka,
          findVal_azureW h k hkapi, findVal_azurePre h k hkc hkh]

/-- Witness for C3 at the spec's Azure header example. -/
theorem azure_transformHeaders_cases_witness :
    findVal (AzureOpenAIAdapter.transformHeaders
        [("authorization", "Bearer azure_token123"), ("content-type", "application/json"),
         ("cf-aig-authorization", "Bearer x")]) "cf-aig-authorization" = none
  ∧ findVal (AzureOpenAIAdapter.transformHeaders
        [("authorization", "Bearer azure_token123"), ("content-type", "application/json"),
         ("cf-aig-authorization", "Bearer x")]) "authorization" = none
  ∧ findVal (AzureOpenAIAdapter.transformHeaders
        [("authorization", "Bearer azure_token123"), ("content-type", "application/json"),
         ("cf-aig-authorization", "Bearer x")]) "api-key" = some "azure_token123"
  ∧ findVal (AzureOpenAIAdapter.transformHeaders
        [("authorization", "Bearer azure_token123"), ("content-type", "application/json"),
         ("cf-aig-authorization", "Bearer x")]) "content-type" =
      some "application/json" := by
  refine ⟨?_, ?_, ?_, ?_⟩
  · exact (azure_transformHeaders_cases _).1 "cf-aig-authorization" (by decide)
  · exact ((azure_transformHeaders_cases _).2.2.2 (by decide)).1
  · have h3 := (((azure_transformHeaders_cases
      [("authorization", "Bearer azure_token123"), ("content-type", "application/json"),
       ("cf-aig-authorization", "Bearer x")]).2.2.2 (by decide)).2.2.1
      "Bearer azure_token123" (by decide)).1 (by decide)
    rw [h3]
    rfl
  · have h4 := ((azure_transformHeaders_cases
      [("authorization", "Bearer azure_token123"), ("content-type", "application/json"),
       ("cf-aig-authorization", "Bearer x")]).2.2.2 (by decide)).2.2.2
      "content-type" (by decide) (by decide) (by decide) (by decide) (by decide)
    rw [h4]
    decide

/-- C10 counterexample: an `authorization` header with the empty value is
falsy, so the Azure transform leaves it in place instead of removing it. -/
theorem azure_empty_authorization_kept :
    AzureOpenAIAdapter.transformHeaders [("authorization", "")] =
      [("authorization", "")] := by decide

/-- C10 (amended): when the selected `authorization`/`Authorization` value
(the lowercase key's value if non-empty, else the capitalized key's) is
non-empty and lacks the `Bearer ` prefix, the transform removes both keys
and adds no `api-key` header (its lookup is unchanged), silently dropping
the credential. -/
theorem azure_nonBearer_auth_dropped (h : Headers) (s : String)
    (hsel : azureSel h = some s) (hs : s ≠ "")
    (hnb : jsStartsWith s "Bearer " = false) :
    findVal (AzureOpenAIAdapter.transformHeaders h) "authorization" = none
  ∧ findVal (AzureOpenAIAdapter.transformHeaders h) "Authorization" = none
  ∧ findVal (AzureOpenAIAdapter.transformHeaders h) "api-key" =
      findVal h "api-key" := by
  have hc : azureCond h = true := by
    unfold azureCond
    unfold azureSel at hsel
    by_cases hta : truthy (findVal (azurePre h) "authorization") = true
    · simp [hta]
    · rw [if_neg hta] at hsel
      rw [hsel]
      simp [truthy, hs]
  have hb : (truthy (azureSel h) &&
      jsStartsWith ((azureSel h).getD "") "Bearer ") = false := by
    rw [hsel]
    simp [hnb]
  refine ⟨?_, ?_, ?_⟩
  · rw [azure_unfold, if_pos hc, findVal_stripCfAig_keep _ _ (by decide),
        findVal_eraseKey_ne _ _ _ (by decide), findVal_eraseKey_self]
  · rw [azure_unfold, if_pos hc, findVal_stripCfAig_keep _ _ (by decide),
        findVal_eraseKey_self]
  · rw [azure_unfold, if_pos hc, findVal_stripCfAig_keep _ _ (by decide),
        findVal_eraseKey_ne _ _ _ (by decide),
        findVal_eraseKey_ne _ _ _ (by decide), if_neg (by simp [hb]),
        findVal_azurePre h "api-key" (by decide) (by decide)]

/-- Witness for C10 at a concrete Basic credential. -/
theorem azure_nonBearer_auth_dropped_witness :
    findVal (AzureOpenAIAdapter.transformHeaders
        [("Authorization", "Basic xyz"), ("api-key", "k0")]) "Authorization" = none
  ∧ findVal (AzureOpenAIAdapter.transformHeaders
        [("Authorization", "Basic xyz"), ("api-key", "k0")]) "api-key" =
      findVal [("Authorization", "Basic xyz"), ("api-key", "k0")] "api-key" := by
  have h := azure_nonBearer_auth_dropped
    [("Authorization", "Basic xyz"), ("api-key", "k0")] "Basic xyz"
    (by decide) (by decide) (by decide)
  exact ⟨h.2.1, h.2.2⟩

/-- The shared strip pipeline (generic and Bedrock transforms) is
idempotent: after one pass, the `cf-aig-authorization` delete, the `host`
delete and the `cf-aig-*` strip are all no-ops. -/
theorem stripErase_idem (h : Headers) :
    stripCfAig (eraseKey "host" (eraseKey "cf-aig-authorization"
      (stripCfAig (eraseKey "host" (eraseKey "cf-aig-authorization" h))))) =
    stripCfAig (eraseKey "host" (eraseKey "cf-aig-authorization" h)) := by
  rw [eraseKey_cfaig_stripCfAig]
  rw [eraseKey_eq_self "host" _
    (keyAbsent_stripCfAig _ _ (keyAbsent_eraseKey_self "host" _))]
  exact stripCfAig_stripCfAig _

/-- The `host` key never occurs in the output of the Azure transform. -/
theorem azure_keyAbsent_host (h : Headers) :
    KeyAbsent "host" (AzureOpenAIAdapter.transformHeaders h) := by
  have hpre : KeyAbsent "host" (azurePre h) := by
    unfold azurePre
    exact keyAbsent_eraseKey_self "host" _
  rw [azure_unfold]
  apply keyAbsent_stripCfAig
  by_cases hc : azureCond h = true
  · rw [if_pos hc]
    apply keyAbsent_eraseKey
    apply keyAbsent_eraseKey
    by_cases hb : (truthy (azureSel h) &&
        jsStartsWith ((azureSel h).getD "") "Bearer ") = true
    · rw [if_pos hb]
      exact keyAbsent_setKey _ _ _ _ (by decide) hpre
    · rw [if_neg hb]
      exact hpre
  · rw [if_neg hc]
    exact hpre

/-- After one Azure pass neither `authorization` key is truthy, so the
second pass takes the no-op branch. -/
theorem azureCond_output_false (h : Headers) :
    azureCond (AzureOpenAIAdapter.transformHeaders h) = false := by
  rw [azureCond_eq]
  by_cases hc : azureCond h = true
  · have ha : findVal (AzureOpenAIAdapter.transformHeaders h) "authorization" = none := by
      rw [azure_unfold, if_pos hc, findVal_stripCfAig_keep _ _ (by decide),
          findVal_eraseKey_ne _ _ _ (by decide), findVal_eraseKey_self]
    have hA : findVal (AzureOpenAIAdapter.transformHeaders h) "Authorization" = none := by
      rw [azure_unfold, if_pos hc, findVal_stripCfAig_keep _ _ (by decide),
          findVal_eraseKey_self]
    rw [ha, hA]
    rfl
  · have hcf : azureCond h = false := Bool.eq_false_iff.mpr hc
    have ha : findVal (AzureOpenAIAdapter.transformHeaders h) "authorization" =
        findVal h "authorization" := by
      rw [azure_unfold, if_neg (by simp [hcf]), findVal_stripCfAig_keep _ _ (by decide),
          findVal_azurePre h _ (by decide) (by decide)]
    have hA : findVal (AzureOpenAIAdapter.transformHeaders h) "Authorization" =
        findVal h "Authorization" := by
      rw [azure_unfold, if_neg (by simp [hcf]), findVal_stripCfAig_keep _ _ (by decide),
          findVal_azurePre h _ (by decide) (by decide)]
    rw [ha, hA]
    rw [azureCond_eq] at hcf
    exact hcf

/-- The Azure transform is idempotent. -/
theorem azure_tf_idem (h : Headers) :
    AzureOpenAIAdapter.transformHeaders (AzureOpenAIAdapter.transformHeaders h) =
      AzureOpenAIAdapter.transformHeaders h := by
  have ht : AzureOpenAIAdapter.transformHeaders h =
      stripCfAig
        (if azureCond h then
          eraseKey "Authorization" (eraseKey "authorization"
            (if truthy (azureSel h) && jsStartsWith ((azureSel h).getD "") "Bearer " then
              setKey "api-key" (jsDrop ((azureSel h).getD "") 7) (azurePre h)
            else azurePre h))
        else azurePre h) := azure_unfold h
  have hpre : azurePre (AzureOpenAIAdapter.transformHeaders h) =
      AzureOpenAIAdapter.transformHeaders h := by
    unfold azurePre
    have hcf : eraseKey "cf-aig-authorization" (AzureOpenAIAdapter.transformHeaders h) =
        AzureOpenAIAdapter.transformHeaders h := by
      rw [ht]
      exact eraseKey_cfaig_stripCfAig _
    rw [hcf, eraseKey_eq_self "host" _ (azure_keyAbsent_host h)]
  rw [azure_unfold (AzureOpenAIAdapter.transformHeaders h),
      if_neg (by simp [azureCond_output_false h]), hpre, ht]
  exact stripCfAig_stripCfAig _

/-- C8: header transformation is idempotent for all three adapters. -/
theorem transformHeaders_idempotent (h : Headers) :
    DefaultAdapter.transformHeaders (DefaultAdapter.transformHeaders h) =
      DefaultAdapter.transformHeaders h
  ∧ AzureOpenAIAdapter.transformHeaders (AzureOpenAIAdapter.transformHeaders h) =
      AzureOpenAIAdapter.transformHeaders h
  ∧ BedrockAdapter.transformHeaders (BedrockAdapter.transformHeaders h) =
      BedrockAdapter.transformHeaders h := by
  refine ⟨?_, azure_tf_idem h, ?_⟩
  · unfold DefaultAdapter.transformHeaders
    exact stripErase_idem h
  · unfold BedrockAdapter.transformHeaders
    exact stripErase_idem h

end AIGW
